import Mathlib

/-!
Verification of the PR Pulse status-aggregation, per-item fetch pipeline,
Jira URL sanitizer, combined health indicator and polling scheduler,
shallowly embedded from the JavaScript sources
(lib/providers/base-provider.js, lib/utils.js, service-worker.js).
-/

namespace PRPulse

/-! ## Check-status reduction (GitHubProvider.getCheckStatus, base-provider.js) -/

/-- One check run as kept in the details array: {name, status, conclusion};
conclusion is null (none) while a run is still in progress. -/
structure CheckRun where
  name : String
  status : String
  conclusion : Option String
deriving DecidableEq, Repr

/-- Result shape {status, details} returned by getCheckStatus. -/
structure CheckStatusResult where
  status : String
  details : List CheckRun
deriving DecidableEq, Repr

/-- Conclusions treated as failures (the failureConclusions array). -/
def failureConclusions : List String :=
  ["failure", "timed_out", "cancelled", "startup_failure", "action_required"]

/-- Conclusions that count as overall success when all runs completed
(the successConclusions array). -/
def successConclusions : List String :=
  ["success", "skipped", "neutral"]

/-- JavaScript array.includes(conclusion) where conclusion may be null:
null is never a member of a list of strings. -/
def conclusionIn (cs : List String) : Option String → Bool
  | some c => cs.contains c
  | none => false

/-- Reduction of the fetched check runs to an overall status, translating
base-provider.js lines 328-353: empty list gives unknown; any run with a
failure conclusion gives failure; otherwise status starts as pending and
becomes success only when all runs completed with success conclusions. -/
def getCheckStatus (details : List CheckRun) : CheckStatusResult :=
  if details.length = 0 then ⟨"unknown", []⟩
  else if details.any (fun d => conclusionIn failureConclusions d.conclusion) then
    ⟨"failure", details⟩
  else if details.all (fun d => d.status = "completed") then
    if details.all (fun d => conclusionIn successConclusions d.conclusion) then
      ⟨"success", details⟩
    else ⟨"pending", details⟩
  else ⟨"pending", details⟩

/-! ## Review-status reduction (GitHubProvider.getReviewStatus, base-provider.js) -/

/-- User object attached to a submitted review. -/
structure ReviewUser where
  login : String
  avatar_url : String
deriving DecidableEq, Repr

/-- One submitted review from the reviews endpoint. -/
structure Review where
  user : ReviewUser
  state : String
deriving DecidableEq, Repr

/-- Collapsed per-reviewer entry stored in the reviewer map. -/
structure Reviewer where
  login : String
  avatarUrl : String
  state : String
deriving DecidableEq, Repr

/-- Result shape {status, reviewers, pendingReviewers} of getReviewStatus.
The pendingReviewers field is optional because the soft-fail substitute
object built by the list fetchers omits it. -/
structure ReviewStatusResult where
  status : String
  reviewers : List Reviewer
  pendingReviewers : Option (List String)
deriving DecidableEq, Repr

/-- Condition review.state !== PENDING and review.state !== COMMENTED
guarding the loop body. -/
def terminalReview (r : Review) : Bool :=
  r.state ≠ "PENDING" && r.state ≠ "COMMENTED"

/-- JavaScript Map.set keyed by login: updating an existing key keeps its
insertion position, a new key is appended. -/
def setReviewer (m : List Reviewer) (v : Reviewer) : List Reviewer :=
  if m.any (fun x => x.login = v.login) then
    m.map (fun x => if x.login = v.login then v else x)
  else m ++ [v]

/-- The for-loop of getReviewStatus over the fetched reviews: skip
non-terminal states, skip logins in the re-requested set, otherwise store
the review as the latest entry for that login. -/
def reviewLoop (reRequested : List String) (m : List Reviewer) : List Review → List Reviewer
  | [] => m
  | r :: rest =>
    if terminalReview r then
      if reRequested.contains r.user.login then reviewLoop reRequested m rest
      else reviewLoop reRequested (setReviewer m ⟨r.user.login, r.user.avatar_url, r.state⟩) rest
    else reviewLoop reRequested m rest

/-- Translation of getReviewStatus (base-provider.js lines 363-409) given
the fetched review list and the requested reviewer logins. -/
def getReviewStatus (reviews : List Review) (requestedReviewers : List String) :
    ReviewStatusResult :=
  let reviewers := reviewLoop requestedReviewers [] reviews
  let status :=
    if requestedReviewers.length > 0 then
      if reviewers.any (fun r => r.state = "CHANGES_REQUESTED") then "changes_requested"
      else "pending"
    else if reviewers.length > 0 then
      if reviewers.any (fun r => r.state = "CHANGES_REQUESTED") then "changes_requested"
      else if reviewers.all (fun r => r.state = "APPROVED") then "approved"
      else "pending"
    else "pending"
  ⟨status, reviewers, some requestedReviewers⟩

/-! ## Specification-side review reduction, following the words of the spec:
first discard PENDING/COMMENTED reviews, then collapse to the latest review
per login, then exclude logins present in requestedReviewerLogins, then
compute the overall verdict. Used to compare against getReviewStatus. -/

/-- Collapse a review list to a login-keyed map holding the latest review
per login (later entries override earlier ones for the same login). -/
def collapseLatest (m : List Reviewer) : List Review → List Reviewer
  | [] => m
  | r :: rest => collapseLatest (setReviewer m ⟨r.user.login, r.user.avatar_url, r.state⟩) rest

/-- Remaining reviewers per the spec: discard non-terminal reviews, collapse
to latest per login, exclude re-requested logins. -/
def remainingReviewersSpec (reviews : List Review) (requested : List String) : List Reviewer :=
  (collapseLatest [] (reviews.filter terminalReview)).filter
    (fun v => !(requested.contains v.login))

/-- Review reduction stated from the specification text. -/
def reviewStatusSpec (reviews : List Review) (requested : List String) : ReviewStatusResult :=
  let remaining := remainingReviewersSpec reviews requested
  let overall :=
    if remaining.any (fun r => r.state = "CHANGES_REQUESTED") then "changes_requested"
    else if requested ≠ [] then "pending"
    else if remaining ≠ [] ∧ remaining.all (fun r => r.state = "APPROVED") then "approved"
    else "pending"
  ⟨overall, remaining, some requested⟩

/-! ## Combined health indicator (status dot of createPRCard, lib/utils.js) -/

/-- Check side of the status-dot condition: a falsy status (absent field or
empty string), success, neutral or unknown counts as ok. -/
def checksOkFlag (checksStatus : Option String) : Bool :=
  checksStatus = none || checksStatus = some "" || checksStatus = some "success" ||
    checksStatus = some "neutral" || checksStatus = some "unknown"

/-- Review side of the status-dot condition: only approved counts as ok. -/
def reviewOkFlag (reviewStatus : Option String) : Bool :=
  reviewStatus = some "approved"

/-- Status dot class computed by createPRCard (lib/utils.js lines 981-996):
green when both conditions hold, red when neither does, yellow otherwise. -/
def statusDotClass (checksStatus reviewStatus : Option String) : String :=
  if checksOkFlag checksStatus && reviewOkFlag reviewStatus then "status-green"
  else if !checksOkFlag checksStatus && !reviewOkFlag reviewStatus then "status-red"
  else "status-yellow"

/-! ## Jira URL sanitizer (sanitizeJiraUrl, lib/utils.js lines 34-59).
The browser URL constructor is external to the repository, so it is taken
as a parameter mapping a string either to a parsed record (protocol and
origin) or to none when construction throws. -/

/-- Parsed URL object surface used by the sanitizer. -/
structure URLRec where
  protocol : String
  origin : String
deriving DecidableEq, Repr

/-- Trim and protocol-prefix steps applied before URL parsing: add https://
in front unless the trimmed input already starts with http:// or https://. -/
def jiraNormalize (url : String) : String :=
  let cleanUrl := url.trim
  if !(cleanUrl.startsWith "http://") && !(cleanUrl.startsWith "https://") then
    "https://" ++ cleanUrl
  else cleanUrl

/-- Translation of sanitizeJiraUrl: empty input gives the empty string;
otherwise normalize, parse, reject any protocol other than http or https
with the empty string, return the origin on success, and return the empty
string when parsing throws. -/
def sanitizeJiraUrl (parseURL : String → Option URLRec) (url : String) : String :=
  if url = "" then ""
  else
    match parseURL (jiraNormalize url) with
    | some urlObj =>
      if urlObj.protocol ≠ "https:" ∧ urlObj.protocol ≠ "http:" then ""
      else urlObj.origin
    | none => ""

/-! ## Per-item fetch pipeline (GitHubProvider.getMyPullRequests and
getReviewRequests with transformPullRequest, base-provider.js). The three
network sub-fetches per item are taken as Except-valued oracles: ok is the
fetched value, error is a thrown exception. -/

/-- User object on a search-result issue (may be null in the API payload). -/
structure IssueUser where
  login : String
  avatar_url : String
deriving DecidableEq, Repr

/-- Fields of a search-result issue consumed by the pipeline. -/
structure Issue where
  id : Nat
  number : Nat
  title : String
  html_url : String
  repository_url : String
  state : String
  user : Option IssueUser
  created_at : String
  updated_at : String
deriving DecidableEq, Repr

/-- Change statistics {additions, deletions, filesChanged}. -/
structure Changes where
  additions : Nat
  deletions : Nat
  filesChanged : Nat
deriving DecidableEq, Repr

/-- Result of getPullRequestDetails consumed by the list fetchers:
{branchName, changes, requestedReviewers}. -/
structure Detail where
  branchName : String
  changes : Changes
  requestedReviewers : List String
deriving DecidableEq, Repr

/-- Normalized PullRequest record built by transformPullRequest, with the
author object flattened into three fields. The two trailing fields model
the underscore-prefixed stash fields of the source. -/
structure PullRequest where
  id : String
  provider : String
  title : String
  url : String
  repoFullName : String
  branchName : String
  authorLogin : String
  authorAvatarUrl : String
  authorName : String
  state : String
  changes : Changes
  checks : CheckStatusResult
  reviews : ReviewStatusResult
  createdAt : String
  updatedAt : String
  stashPrNumber : Nat
  stashRepoFullName : String
deriving DecidableEq, Repr

/-- First match of the regular expression repos\/(.+)$ over a string: the
capture is everything after the first occurrence of repos/ that is followed
by at least one character. -/
def reposCaptureAux : List Char → Option (List Char)
  | [] => none
  | c :: rest =>
    if (c :: rest).take 6 = "repos/".data ∧ rest.drop 5 ≠ [] then some (rest.drop 5)
    else reposCaptureAux rest

/-- Owner/repo captured from a repository_url, or none when the pattern
does not match. -/
def matchReposCapture (s : String) : Option String :=
  (reposCaptureAux s.data).map (fun cs => String.mk cs)

/-- Translation of transformPullRequest (base-provider.js lines 163-200).
The prDetails argument is the record produced by getPullRequestDetails,
which has no head, additions, deletions or changed_files fields, so the
optional chains on it always yield the defaults. -/
def transformPullRequest (issue : Issue) (_prDetails : Option Detail) : PullRequest :=
  let repoFullName := (matchReposCapture issue.repository_url).getD ""
  { id := "github-" ++ toString issue.id
    provider := "github"
    title := issue.title
    url := issue.html_url
    repoFullName := repoFullName
    branchName := ""
    authorLogin := ((issue.user.map (fun u => u.login)).getD "")
    authorAvatarUrl := ((issue.user.map (fun u => u.avatar_url)).getD "")
    authorName := ((issue.user.map (fun u => u.login)).getD "")
    state := issue.state
    changes := ⟨0, 0, 0⟩
    checks := ⟨"unknown", []⟩
    reviews := ⟨"pending", [], none⟩
    createdAt := issue.created_at
    updatedAt := issue.updated_at
    stashPrNumber := issue.number
    stashRepoFullName := repoFullName }

/-- Per-item pipeline of the list fetchers (base-provider.js lines 210-237):
a thrown detail fetch degrades the item to its unenriched transform; with a
successful detail fetch, a thrown check fetch is substituted with
{status unknown, details []} and a thrown review fetch with
{status pending, reviewers []} (no pendingReviewers field), and the item is
returned enriched with branch name, changes, checks and reviews. -/
def processItem (issue : Issue) (detailR : Except Unit Detail)
    (checksR : Except Unit CheckStatusResult) (reviewsR : Except Unit ReviewStatusResult) :
    PullRequest :=
  match detailR with
  | .error _ => transformPullRequest issue none
  | .ok d =>
    let checks := match checksR with
      | .ok c => c
      | .error _ => ⟨"unknown", []⟩
    let reviews := match reviewsR with
      | .ok r => r
      | .error _ => ⟨"pending", [], none⟩
    { transformPullRequest issue (some d) with
        branchName := d.branchName
        changes := d.changes
        checks := checks
        reviews := reviews }

/-- One search-result item together with the outcomes of its three
sub-fetches. -/
structure ItemFetch where
  issue : Issue
  detailR : Except Unit Detail
  checksR : Except Unit CheckStatusResult
  reviewsR : Except Unit ReviewStatusResult

/-- Promise.all over the per-item pipelines: one output slot per item, in
order. -/
def processBatch (items : List ItemFetch) : List PullRequest :=
  items.map (fun it => processItem it.issue it.detailR it.checksR it.reviewsR)

/-! ## Polling scheduler (service-worker.js). -/

/-- Data returned by providerManager.fetchAllPullRequests. -/
structure FetchData where
  myPRs : List PullRequest
  reviewRequests : List PullRequest
deriving DecidableEq, Repr

/-- Persisted snapshot written by storage.setPullRequests. -/
structure Snapshot where
  myPRs : List PullRequest
  reviewRequests : List PullRequest
  lastFetched : Nat
deriving DecidableEq, Repr

/-- Promise.all of the two list fetches: rejects when either rejects. -/
def fetchAllPullRequests (myR revR : Except Unit (List PullRequest)) :
    Except Unit FetchData :=
  match myR, revR with
  | .ok m, .ok r => .ok ⟨m, r⟩
  | .error e, _ => .error e
  | _, .error e => .error e

/-- Wholesale snapshot replacement performed by storage.setPullRequests. -/
def setPullRequests (data : FetchData) (now : Nat) : Snapshot :=
  ⟨data.myPRs, data.reviewRequests, now⟩

/-- Effect of one fetchAndCachePRs cycle (service-worker.js lines 32-53) on
the persisted snapshot store. hasProvider and initOk model
providerManager.hasProvider() and the result of initializeProvider();
persistOk models whether the storage write succeeds (a failed write leaves
the store unchanged and the surrounding catch swallows the exception). -/
def fetchAndCachePRs (store : Option Snapshot) (hasProvider initOk : Bool)
    (myR revR : Except Unit (List PullRequest)) (persistOk : Bool) (now : Nat) :
    Option Snapshot :=
  if !hasProvider && !initOk then store
  else
    match fetchAllPullRequests myR revR with
    | .error _ => store
    | .ok data => if persistOk then some (setPullRequests data now) else store

/-- Observable scheduler state: whether a provider is configured, how many
fetch cycles are currently in flight, and how many times the adapter
fan-out has been invoked. -/
structure SchedState where
  providerConfigured : Bool
  inFlight : Nat
  adapterCalls : Nat
deriving DecidableEq, Repr

/-- Events driving the service worker: the polling alarm firing, a
REFRESH_PRS message from the popup, and a previously started fetch cycle
completing. -/
inductive SchedEvent where
  | alarmFire
  | refreshMessage
  | fetchComplete
deriving DecidableEq, Repr

/-- Invocation of fetchAndCachePRs by a trigger: the source contains no
in-flight guard, so with a configured provider every invocation starts a
new fetch cycle unconditionally. -/
def triggerFetch (s : SchedState) : SchedState :=
  if s.providerConfigured then
    { s with inFlight := s.inFlight + 1, adapterCalls := s.adapterCalls + 1 }
  else s

/-- Event semantics: both the alarm listener and the REFRESH_PRS handler
call fetchAndCachePRs directly; a completing cycle leaves flight. -/
def schedStep (s : SchedState) : SchedEvent → SchedState
  | .alarmFire => triggerFetch s
  | .refreshMessage => triggerFetch s
  | .fetchComplete => { s with inFlight := s.inFlight - 1 }

/-- Run of the scheduler over a sequence of events. -/
def schedRun (s : SchedState) (evs : List SchedEvent) : SchedState :=
  evs.foldl schedStep s

/-- Initial state with a configured provider and nothing in flight. -/
def schedInit : SchedState := ⟨true, 0, 0⟩

/-! ## Concrete sample data for witnesses and counterexamples. -/

/-- Check runs with one failed run and one still in progress. -/
def checkRunsMixed : List CheckRun :=
  [⟨"build", "completed", some "failure"⟩, ⟨"test", "in_progress", none⟩]

/-- Check runs all completed with success or skipped conclusions. -/
def checkRunsGreen : List CheckRun :=
  [⟨"build", "completed", some "success"⟩, ⟨"lint", "completed", some "skipped"⟩]

/-- Sample search-result issue used by the review-fallback counterexample. -/
def issueCache : Issue :=
  ⟨101, 7, "Add cache", "https://github.com/acme/widgets/pull/7",
    "https://api.github.com/repos/acme/widgets", "open",
    some ⟨"carol", "carol.png"⟩, "2024-03-01T00:00:00Z", "2024-03-02T00:00:00Z"⟩

/-- Sample detail record whose requestedReviewers list is non-empty. -/
def detailCache : Detail := ⟨"feat/ABC-1/cache", ⟨10, 2, 3⟩, ["alice"]⟩

/-- Sample search-result issue used by the batch counterexample. -/
def issueDocs : Issue :=
  ⟨202, 9, "Update docs", "https://github.com/acme/widgets/pull/9",
    "https://api.github.com/repos/acme/widgets", "open",
    some ⟨"dave", "dave.png"⟩, "2024-04-01T00:00:00Z", "2024-04-02T00:00:00Z"⟩

/-- Sample detail record for the second batch item. -/
def detailDocs : Detail := ⟨"docs/readme", ⟨5, 1, 1⟩, []⟩

/-- Sample fetched review status reporting an approval. -/
def reviewsApproved : ReviewStatusResult :=
  ⟨"approved", [⟨"bob", "bob.png", "APPROVED"⟩], some []⟩

/-- Two-item batch where the first item's check sub-fetch throws while its
detail and review sub-fetches succeed, and the second item succeeds fully. -/
def batchMixed : List ItemFetch :=
  [⟨issueCache, .ok detailCache, .error (), .ok reviewsApproved⟩,
    ⟨issueDocs, .ok detailDocs, .ok ⟨"success", checkRunsGreen⟩, .ok reviewsApproved⟩]

/-- Stub URL parser behaving like the browser on a javascript-scheme URL. -/
def parseJsScheme : String → Option URLRec :=
  fun _ => some ⟨"javascript:", "null"⟩

/-- Stub URL parser behaving like the browser when construction throws. -/
def parseAlwaysThrows : String → Option URLRec :=
  fun _ => none

/-! ## Theorems -/

/-- C2: for every check-run sequence containing at least one run whose
conclusion is a failure-class conclusion (failure, timed_out, cancelled,
startup_failure, action_required), the reduction returns overall failure,
regardless of the status or conclusion of every other run. -/
theorem check_failure_preempts (runs : List CheckRun)
    (h : ∃ d ∈ runs, conclusionIn failureConclusions d.conclusion = true) :
    (getCheckStatus runs).status = "failure" := by
  obtain ⟨d, hd, hconc⟩ := h
  have hne : runs.length ≠ 0 := by
    cases runs with
    | nil => cases hd
    | cons a t => simp
  have hany : runs.any (fun d => conclusionIn failureConclusions d.conclusion) = true :=
    List.any_eq_true.mpr ⟨d, hd, hconc⟩
  simp [getCheckStatus, hne, hany]

/-- Witness for check_failure_preempts: a concrete sequence with one failed
run and one run still in progress reduces to failure. -/
theorem check_failure_preempts_witness :
    (getCheckStatus checkRunsMixed).status = "failure" :=
  check_failure_preempts checkRunsMixed
    ⟨⟨"build", "completed", some "failure"⟩, by decide, by decide⟩

/-- C7: for every check-run sequence with no failure-class conclusion, the
reduction yields unknown on the empty sequence; on a non-empty sequence it
yields success exactly when all runs are completed and every conclusion is
success, skipped or neutral, and pending otherwise (in particular when some
run is not yet completed). -/
theorem check_reduction_no_failure_cases (runs : List CheckRun)
    (h : ∀ d ∈ runs, conclusionIn failureConclusions d.conclusion = false) :
    (getCheckStatus runs).status =
      if runs.isEmpty then "unknown"
      else if runs.all (fun d => d.status = "completed") &&
          runs.all (fun d => conclusionIn successConclusions d.conclusion) then "success"
      else "pending" := by
  have hany : runs.any (fun d => conclusionIn failureConclusions d.conclusion) = false := by
    rw [List.any_eq_false]
    intro d hd
    simp [h d hd]
  cases runs with
  | nil => simp [getCheckStatus]
  | cons a t =>
    cases h1 : (a :: t).all (fun d => d.status = "completed") <;>
      cases h2 : (a :: t).all (fun d => conclusionIn successConclusions d.conclusion) <;>
        simp [getCheckStatus, hany, h1, h2]

/-- Witness for check_reduction_no_failure_cases: a concrete all-completed
sequence of success and skipped conclusions reduces to success. -/
theorem check_reduction_no_failure_cases_witness :
    (getCheckStatus checkRunsGreen).status = "success" := by
  have h := check_reduction_no_failure_cases checkRunsGreen (by decide)
  simpa using h

/-- C5 counterexample: with pending checks and a non-approved review the
status dot computed by createPRCard is red (blocked), not yellow
(attention), contrary to the claim that only a clear check failure combined
with a non-approved review yields blocked. -/
theorem status_dot_pending_cex :
    statusDotClass (some "pending") (some "pending") = "status-red" ∧
      statusDotClass (some "pending") (some "pending") ≠ "status-yellow" := by
  constructor
  · rfl
  · decide

/-- C5 amended: over the computed status domains, the dot is green
(healthy) exactly when the check status is success or unknown and the
review is approved; red (blocked) exactly when the check status is failure
or pending and the review is not approved; yellow (attention) otherwise. -/
theorem status_dot_characterization (c r : String)
    (hc : c = "success" ∨ c = "failure" ∨ c = "pending" ∨ c = "unknown")
    (hr : r = "approved" ∨ r = "changes_requested" ∨ r = "pending") :
    (statusDotClass (some c) (some r) = "status-green" ↔
        ((c = "success" ∨ c = "unknown") ∧ r = "approved")) ∧
      (statusDotClass (some c) (some r) = "status-red" ↔
        ((c = "failure" ∨ c = "pending") ∧ r ≠ "approved")) ∧
      (statusDotClass (some c) (some r) = "status-yellow" ↔
        (¬((c = "success" ∨ c = "unknown") ∧ r = "approved") ∧
          ¬((c = "failure" ∨ c = "pending") ∧ r ≠ "approved"))) := by
  obtain rfl | rfl | rfl | rfl := hc <;> obtain rfl | rfl | rfl := hr <;> refine ⟨?_, ?_, ?_⟩ <;>
    decide

/-- Witness for status_dot_characterization at success and approved. -/
theorem status_dot_characterization_witness :
    statusDotClass (some "success") (some "approved") = "status-green" :=
  ((status_dot_characterization "success" "approved" (Or.inl rfl) (Or.inl rfl)).1).mpr
    ⟨Or.inl rfl, rfl⟩

/-- C3 counterexample: starting from the configured idle state, a manual
refresh followed by an alarm firing before the first cycle completes leaves
two fetch cycles in flight, contradicting the claim that a trigger arriving
while a cycle is in flight is dropped and at most one cycle is ever in
flight. -/
theorem scheduler_overlap_cex :
    (schedRun schedInit [SchedEvent.refreshMessage, SchedEvent.alarmFire]).inFlight = 2 ∧
      ¬((schedRun schedInit [SchedEvent.refreshMessage, SchedEvent.alarmFire]).inFlight ≤ 1) := by
  constructor
  · rfl
  · decide

/-- C3 amended: the service worker has no in-flight guard, so with a
configured provider every trigger (alarm or manual refresh) starts another
fetch cycle and invokes the adapter again, whatever is already in flight;
in particular two concurrent cycles are reachable. -/
theorem scheduler_trigger_always_starts_cycle :
    (∀ flight calls : Nat,
        (schedStep ⟨true, flight, calls⟩ SchedEvent.alarmFire).inFlight = flight + 1 ∧
        (schedStep ⟨true, flight, calls⟩ SchedEvent.alarmFire).adapterCalls = calls + 1 ∧
        (schedStep ⟨true, flight, calls⟩ SchedEvent.refreshMessage).inFlight = flight + 1 ∧
        (schedStep ⟨true, flight, calls⟩ SchedEvent.refreshMessage).adapterCalls = calls + 1) ∧
      (schedRun schedInit [SchedEvent.refreshMessage, SchedEvent.alarmFire]).inFlight = 2 :=
  ⟨fun _ _ => ⟨rfl, rfl, rfl, rfl⟩, rfl⟩

/-- C4 counterexample: when the review sub-fetch throws while the detail
fetch succeeded with a non-empty requestedReviewers list, the substituted
review value has no pendingReviewers field at all; it is not the claimed
value carrying the requested reviewer logins. -/
theorem review_fallback_cex :
    (processItem issueCache (.ok detailCache) (.ok ⟨"success", []⟩) (.error ())).reviews =
        ⟨"pending", [], none⟩ ∧
      (processItem issueCache (.ok detailCache) (.ok ⟨"success", []⟩) (.error ())).reviews ≠
        ⟨"pending", [], some detailCache.requestedReviewers⟩ := by
  constructor
  · rfl
  · decide

/-- C4 amended: whenever the review sub-fetch throws and the detail fetch
succeeded, the item's review status is substituted with exactly
{overall pending, reviewers [], no pendingReviewers field}, whatever the
check sub-fetch did. -/
theorem review_fallback_value (issue : Issue) (d : Detail)
    (checksR : Except Unit CheckStatusResult) :
    (processItem issue (.ok d) checksR (.error ())).reviews = ⟨"pending", [], none⟩ := by
  cases checksR <;> rfl

/-- C6: a polling cycle that fails — either list fetch rejecting, or the
snapshot write failing — leaves the previously persisted snapshot exactly
as it was; the store is only written after both list fetches succeed. -/
theorem failed_cycle_preserves_snapshot :
    (∀ (store : Option Snapshot) (hasProvider initOk : Bool)
        (revR : Except Unit (List PullRequest)) (persistOk : Bool) (now : Nat),
        fetchAndCachePRs store hasProvider initOk (.error ()) revR persistOk now = store) ∧
      (∀ (store : Option Snapshot) (hasProvider initOk : Bool)
        (myR : Except Unit (List PullRequest)) (persistOk : Bool) (now : Nat),
        fetchAndCachePRs store hasProvider initOk myR (.error ()) persistOk now = store) ∧
      (∀ (store : Option Snapshot) (hasProvider initOk : Bool)
        (myR revR : Except Unit (List PullRequest)) (now : Nat),
        fetchAndCachePRs store hasProvider initOk myR revR false now = store) := by
  refine ⟨?_, ?_, ?_⟩
  · intro store hasProvider initOk revR persistOk now
    unfold fetchAndCachePRs
    split
    · rfl
    · cases revR <;> rfl
  · intro store hasProvider initOk myR persistOk now
    unfold fetchAndCachePRs
    split
    · rfl
    · cases myR <;> rfl
  · intro store hasProvider initOk myR revR now
    unfold fetchAndCachePRs
    split
    · rfl
    · cases myR <;> cases revR <;> rfl

/-- C8 counterexample: in a two-item batch where the first item's check
sub-fetch throws but its detail and review sub-fetches succeed with an
approved review, the batch keeps both items and the failing item's review
status stays approved — it is not degraded to the pending default the claim
requires. -/
theorem batch_partial_failure_cex :
    (processBatch batchMixed).length = 2 ∧
      (processBatch batchMixed).map (fun p => p.checks.status) = ["unknown", "success"] ∧
      (processBatch batchMixed).map (fun p => p.reviews.status) = ["approved", "approved"] ∧
      "approved" ≠ "pending" := by
  refine ⟨rfl, rfl, rfl, by decide⟩

/-- C8 amended: the batch always returns one entry per input item; an item
whose detail fetch throws degrades to its unenriched transform (checks
unknown, reviews pending); an item whose check or review sub-fetch alone
throws keeps its enriched fields and has only the failing field substituted
with its default; an item with no failure is fully enriched. -/
theorem batch_item_isolation :
    (∀ items : List ItemFetch, (processBatch items).length = items.length) ∧
      (∀ (issue : Issue) (checksR : Except Unit CheckStatusResult)
        (reviewsR : Except Unit ReviewStatusResult),
        processItem issue (.error ()) checksR reviewsR = transformPullRequest issue none) ∧
      (∀ (issue : Issue) (d : Detail) (r : ReviewStatusResult),
        processItem issue (.ok d) (.error ()) (.ok r) =
          { transformPullRequest issue (some d) with
              branchName := d.branchName, changes := d.changes,
              checks := ⟨"unknown", []⟩, reviews := r }) ∧
      (∀ (issue : Issue) (d : Detail) (c : CheckStatusResult),
        processItem issue (.ok d) (.ok c) (.error ()) =
          { transformPullRequest issue (some d) with
              branchName := d.branchName, changes := d.changes,
              checks := c, reviews := ⟨"pending", [], none⟩ }) ∧
      (∀ (issue : Issue) (d : Detail) (c : CheckStatusResult) (r : ReviewStatusResult),
        processItem issue (.ok d) (.ok c) (.ok r) =
          { transformPullRequest issue (some d) with
              branchName := d.branchName, changes := d.changes,
              checks := c, reviews := r }) := by
  refine ⟨?_, fun _ _ _ => rfl, fun _ _ _ => rfl, fun _ _ _ => rfl, fun _ _ _ _ => rfl⟩
  intro items
  simp [processBatch]

/-- C10: sanitizeJiraUrl returns either the empty string or the origin of a
parsed URL whose protocol is http or https; in particular an input parsing
to any other protocol, or failing to parse even after the https prefix, is
mapped to the empty string and never to a fragment of the input. -/
theorem sanitize_jira_url_safe (parseURL : String → Option URLRec) (url : String) :
    (sanitizeJiraUrl parseURL url = "" ∨
        ∃ u, parseURL (jiraNormalize url) = some u ∧
          (u.protocol = "http:" ∨ u.protocol = "https:") ∧
          sanitizeJiraUrl parseURL url = u.origin) ∧
      (∀ u, parseURL (jiraNormalize url) = some u → u.protocol ≠ "http:" →
        u.protocol ≠ "https:" → sanitizeJiraUrl parseURL url = "") ∧
      (parseURL (jiraNormalize url) = none → sanitizeJiraUrl parseURL url = "") := by
  by_cases hurl : url = ""
  · subst hurl
    have hres : sanitizeJiraUrl parseURL "" = "" := by simp [sanitizeJiraUrl]
    exact ⟨Or.inl hres, fun _ _ _ _ => hres, fun _ => hres⟩
  · cases hp : parseURL (jiraNormalize url) with
    | none =>
      have hres : sanitizeJiraUrl parseURL url = "" := by
        simp [sanitizeJiraUrl, hurl, hp]
      exact ⟨Or.inl hres, fun u hu => Option.noConfusion hu, fun _ => hres⟩
    | some u =>
      by_cases hproto : u.protocol ≠ "https:" ∧ u.protocol ≠ "http:"
      · have hres : sanitizeJiraUrl parseURL url = "" := by
          simp [sanitizeJiraUrl, hurl, hp, hproto.1, hproto.2]
        exact ⟨Or.inl hres, fun _ _ _ _ => hres, fun hn => Option.noConfusion hn⟩
      · have hhttp : u.protocol = "https:" ∨ u.protocol = "http:" := by tauto
        have hres : sanitizeJiraUrl parseURL url = u.origin := by
          simp [sanitizeJiraUrl, hurl, hp, hproto]
        refine ⟨Or.inr ⟨u, rfl, hhttp.symm, hres⟩, ?_, fun hn => Option.noConfusion hn⟩
        intro v hv h1 h2
        injection hv with hv
        subst hv
        exact hhttp.elim (fun h => absurd h h2) (fun h => absurd h h1)

/-- Witness for sanitize_jira_url_safe: a javascript-scheme input and an
unparsable input both sanitize to the empty string. -/
theorem sanitize_jira_url_safe_witness :
    sanitizeJiraUrl parseJsScheme "javascript:alert(1)" = "" ∧
      sanitizeJiraUrl parseAlwaysThrows "::bad::" = "" :=
  ⟨(sanitize_jira_url_safe parseJsScheme "javascript:alert(1)").2.1
      ⟨"javascript:", "null"⟩ rfl (by decide) (by decide),
    (sanitize_jira_url_safe parseAlwaysThrows "::bad::").2.2 rfl⟩

/-! ## Lemmas relating the review-status loop to its specification. -/

/-- Filtering out re-requested logins absorbs a map update keyed by a
re-requested login. -/
lemma filter_map_update_of_mem (req : List String) (v : Reviewer)
    (hv : v.login ∈ req) :
    ∀ m : List Reviewer,
      (m.map (fun x => if x.login = v.login then v else x)).filter
          (fun x => !(req.contains x.login)) =
        m.filter (fun x => !(req.contains x.login)) := by
  intro m
  induction m with
  | nil => rfl
  | cons x t ih =>
    by_cases hx : x.login = v.login
    · have hxm : x.login ∈ req := by rw [hx]; exact hv
      simp [List.filter_cons, hx, hv, hxm]
      simpa using ih
    · by_cases hpx : x.login ∈ req <;> simp [List.filter_cons, hx, hpx] <;> simpa using ih

/-- Filtering out re-requested logins commutes with a map update keyed by a
login that is not re-requested. -/
lemma filter_map_update_of_not_mem (req : List String) (v : Reviewer)
    (hv : v.login ∉ req) :
    ∀ m : List Reviewer,
      (m.map (fun x => if x.login = v.login then v else x)).filter
          (fun x => !(req.contains x.login)) =
        (m.filter (fun x => !(req.contains x.login))).map
          (fun x => if x.login = v.login then v else x) := by
  intro m
  induction m with
  | nil => rfl
  | cons x t ih =>
    by_cases hx : x.login = v.login
    · have hxm : x.login ∉ req := by rw [hx]; exact hv
      simp [List.filter_cons, hx, hv, hxm]
      simpa using ih
    · by_cases hpx : x.login ∈ req <;> simp [List.filter_cons, hx, hpx] <;> simpa using ih

/-- Presence of a non-re-requested login is unchanged by filtering out the
re-requested logins. -/
lemma any_login_filter (req : List String) (v : Reviewer)
    (hv : v.login ∉ req) :
    ∀ m : List Reviewer,
      ((m.filter (fun x => !(req.contains x.login))).any (fun x => x.login = v.login)) =
        m.any (fun x => x.login = v.login) := by
  intro m
  induction m with
  | nil => rfl
  | cons x t ih =>
    by_cases hx : x.login = v.login
    · simp only [List.filter_cons, List.any_cons]
      simp [hx, hv]
    · by_cases hpx : x.login ∈ req <;> simp [List.filter_cons, hpx, hx] <;> simpa using ih

/-- Storing a re-requested reviewer and then excluding re-requested logins
is the same as excluding them from the original map. -/
lemma filter_setReviewer_of_mem (req : List String) (v : Reviewer)
    (hv : v.login ∈ req) (m : List Reviewer) :
    (setReviewer m v).filter (fun x => !(req.contains x.login)) =
      m.filter (fun x => !(req.contains x.login)) := by
  unfold setReviewer
  split
  · exact filter_map_update_of_mem req v hv m
  · simp [List.filter_append, hv]

/-- Storing a non-re-requested reviewer commutes with excluding the
re-requested logins. -/
lemma filter_setReviewer_of_not_mem (req : List String) (v : Reviewer)
    (hv : v.login ∉ req) (m : List Reviewer) :
    (setReviewer m v).filter (fun x => !(req.contains x.login)) =
      setReviewer (m.filter (fun x => !(req.contains x.login))) v := by
  cases hm : m.any (fun x => x.login = v.login) with
  | false =>
    have hf : ((m.filter (fun x => !(req.contains x.login))).any
        (fun x => x.login = v.login)) = false := by
      rw [any_login_filter req v hv m]; exact hm
    have h1 : ¬((m.any fun x => decide (x.login = v.login)) = true) := by
      rw [hm]; exact Bool.false_ne_true
    have h2 : ¬(((m.filter (fun x => !(req.contains x.login))).any
        fun x => decide (x.login = v.login)) = true) := by
      rw [hf]; exact Bool.false_ne_true
    simp only [setReviewer]
    rw [if_neg h1, if_neg h2, List.filter_append]
    simp [hv]
  | true =>
    have hf : ((m.filter (fun x => !(req.contains x.login))).any
        (fun x => x.login = v.login)) = true := by
      rw [any_login_filter req v hv m]; exact hm
    simp only [setReviewer]
    rw [if_pos hm, if_pos hf]
    exact filter_map_update_of_not_mem req v hv m

/-- The source loop (which skips re-requested logins while folding) equals
the specification pipeline (collapse everything terminal, then filter the
re-requested logins out), for any starting map. -/
lemma reviewLoop_eq_collapse_filter (req : List String) :
    ∀ (l : List Review) (m : List Reviewer),
      (collapseLatest m (l.filter terminalReview)).filter (fun x => !(req.contains x.login)) =
        reviewLoop req (m.filter (fun x => !(req.contains x.login))) l := by
  intro l
  induction l with
  | nil => intro m; rfl
  | cons r t ih =>
    intro m
    cases hterm : terminalReview r with
    | false =>
      simp only [List.filter_cons, hterm, Bool.false_eq_true, if_false, reviewLoop]
      exact ih m
    | true =>
      by_cases hreq : r.user.login ∈ req
      · have hc : req.contains r.user.login = true := by simp [hreq]
        simp only [List.filter_cons, hterm, if_true, collapseLatest, reviewLoop, hc]
        rw [ih (setReviewer m ⟨r.user.login, r.user.avatar_url, r.state⟩)]
        rw [filter_setReviewer_of_mem req ⟨r.user.login, r.user.avatar_url, r.state⟩ hreq m]
      · have hc : req.contains r.user.login = false := by simp [hreq]
        simp only [List.filter_cons, hterm, if_true, collapseLatest, reviewLoop, hc,
          Bool.false_eq_true, if_false]
        rw [ih (setReviewer m ⟨r.user.login, r.user.avatar_url, r.state⟩)]
        rw [filter_setReviewer_of_not_mem req ⟨r.user.login, r.user.avatar_url, r.state⟩ hreq m]

/-- The source's overall-status expression and the specification's
overall-status expression agree on any reviewer list. -/
lemma overall_status_eq (req : List String) (R : List Reviewer) :
    (if req.length > 0 then
        if R.any (fun r => r.state = "CHANGES_REQUESTED") then "changes_requested"
        else "pending"
      else if R.length > 0 then
        if R.any (fun r => r.state = "CHANGES_REQUESTED") then "changes_requested"
        else if R.all (fun r => r.state = "APPROVED") then "approved"
        else "pending"
      else "pending") =
      (if R.any (fun r => r.state = "CHANGES_REQUESTED") then "changes_requested"
        else if req ≠ [] then "pending"
        else if R ≠ [] ∧ R.all (fun r => r.state = "APPROVED") then "approved"
        else "pending") := by
  cases req with
  | nil =>
    cases R with
    | nil => simp
    | cons a s =>
      cases hCR : (a :: s).any (fun r => r.state = "CHANGES_REQUESTED") <;>
        cases hA : (a :: s).all (fun r => r.state = "APPROVED") <;> simp [hCR, hA]
  | cons q qs =>
    cases hCR : R.any (fun r => r.state = "CHANGES_REQUESTED") <;> simp [hCR]

/-- C1: the review reduction equals the specification pipeline: discard
PENDING and COMMENTED reviews, collapse the rest to the latest review per
login, exclude logins present in requestedReviewerLogins, then report
changes_requested if any remaining reviewer requested changes, pending when
re-requests are outstanding (never approved), approved exactly when the
remaining reviewers are non-empty and all approved, and pending when no
reviewer remains. -/
theorem review_reduction_matches_spec (reviews : List Review) (req : List String) :
    getReviewStatus reviews req = reviewStatusSpec reviews req := by
  have hrev : remainingReviewersSpec reviews req = reviewLoop req [] reviews := by
    simpa [remainingReviewersSpec] using reviewLoop_eq_collapse_filter req reviews []
  simp only [getReviewStatus, reviewStatusSpec, ReviewStatusResult.mk.injEq]
  refine ⟨?_, hrev.symm, trivial⟩
  rw [hrev]
  exact overall_status_eq req (reviewLoop req [] reviews)

/-! ## Lemmas for the pending-reviewer exclusion invariant. -/

/-- Storing a reviewer whose login is outside the re-requested set keeps
the map free of re-requested logins. -/
lemma setReviewer_all_not_req (req : List String) (v : Reviewer) (m : List Reviewer)
    (hm : m.all (fun x => !(req.contains x.login)) = true)
    (hv : v.login ∉ req) :
    (setReviewer m v).all (fun x => !(req.contains x.login)) = true := by
  unfold setReviewer
  split
  · rw [List.all_eq_true] at hm ⊢
    intro y hy
    rw [List.mem_map] at hy
    obtain ⟨x, hx, rfl⟩ := hy
    by_cases hxv : x.login = v.login
    · simp [hxv, hv]
    · simpa [hxv] using hm x hx
  · rw [List.all_append]
    have hm' : ∀ x ∈ m, x.login ∉ req := by simpa using hm
    simp only [Bool.and_eq_true]
    constructor
    · simpa using hm'
    · simp [hv]

/-- The review loop never stores a re-requested login. -/
lemma reviewLoop_all_not_req (req : List String) :
    ∀ (l : List Review) (m : List Reviewer),
      m.all (fun x => !(req.contains x.login)) = true →
      (reviewLoop req m l).all (fun x => !(req.contains x.login)) = true := by
  intro l
  induction l with
  | nil => intro m hm; exact hm
  | cons r t ih =>
    intro m hm
    cases hterm : terminalReview r with
    | false =>
      simp only [reviewLoop, hterm, Bool.false_eq_true, if_false]
      exact ih m hm
    | true =>
      by_cases hreq : r.user.login ∈ req
      · have hc : req.contains r.user.login = true := by simp [hreq]
        simp only [reviewLoop, hterm, hc, if_true]
        exact ih m hm
      · have hc : req.contains r.user.login = false := by simp [hreq]
        simp only [reviewLoop, hterm, hc, if_true, Bool.false_eq_true, if_false]
        exact ih _ (setReviewer_all_not_req req _ m hm hreq)

/-- C9: in every value produced by the review reduction, no login listed in
the pendingReviewers field also appears among the reviewers entries — the
re-requested reviewer's previously submitted review is excluded. -/
theorem pending_reviewers_disjoint (reviews : List Review) (req : List String) :
    (((getReviewStatus reviews req).pendingReviewers.getD []).all
      (fun lg => !((getReviewStatus reviews req).reviewers.any (fun v => v.login = lg)))) =
      true := by
  have hloop : (reviewLoop req [] reviews).all (fun x => !(req.contains x.login)) = true :=
    reviewLoop_all_not_req req reviews [] rfl
  simp only [getReviewStatus, Option.getD_some]
  rw [List.all_eq_true]
  intro lg hlg
  simp only [Bool.not_eq_true', List.any_eq_false]
  intro v hv hbeq
  have hvlogin : v.login = lg := by simpa using hbeq
  have h1 : (!(req.contains v.login)) = true := List.all_eq_true.mp hloop v hv
  rw [hvlogin] at h1
  have h2 : req.contains lg = true := by
    simpa using hlg
  rw [h2] at h1
  exact absurd h1 (by decide)

end PRPulse
